import Mathlib

/-!
Verification of the cf-purge-worker core: resource dependency analysis,
risk classification, deletion-plan construction and deletion execution.

The Go sources are shallowly embedded below:
* `pkg/types`          → the structures `Binding`, `ResourceUsage`,
  `WorkerInfo`, `DeletionPlan`, `DeletionResult` and the `RiskLevel`
  constants (Go encodes `RiskLevel` as an `int` with iota values 0,1,2,
  so we keep it as `Nat`).
* `internal/analyzer`  → `getResourceKey`, `getResourceID`,
  `getResourceName`, `enrichResourceName`, `calculateRiskLevel`,
  `AnalyzeDependencies` (split into the whole-account index construction
  `buildResourceMap` and the target pass `analyzeGo`, which threads the
  map because the Go code mutates map entries through pointers) and
  `CreateDeletionPlan`.
* `internal/deleter`   → `deleteResource` and `Execute`.  The remote
  Cloudflare client is abstracted as a response oracle `RemoteApi`; the
  list of remote calls issued is tracked alongside the result so that
  "no delete call was issued" claims are statable.
-/

namespace CfPurge

/-- Binding kinds, from `pkg/types` (`BindingType` string constants). -/
inductive BindingType where
  | kv
  | r2
  | d1
  | durableObject
  | service
  | queue
  | hyperdrive
  | vectorize
  | envVar
  | secretText
  | mtls
  deriving DecidableEq, Repr

/-- A worker binding, from `pkg/types.Binding`.  Fields unused by the
analyzed code (`ConfigID`, `IndexName`) are omitted. -/
structure Binding where
  type : BindingType
  name : String
  namespaceID : String
  bucketName : String
  databaseID : String
  databaseName : String
  className : String
  scriptName : String
  queueName : String
  deriving DecidableEq, Repr

/-- Go's `RiskLevel` is an `int` (iota 0,1,2). -/
abbrev RiskLevel := Nat

def RiskLevelSafe : RiskLevel := 0

def RiskLevelCaution : RiskLevel := 1

def RiskLevelDanger : RiskLevel := 2

/-- `pkg/types.ResourceUsage`. -/
structure ResourceUsage where
  resourceID : String
  resourceType : BindingType
  resourceName : String
  usedBy : List String
  riskLevel : RiskLevel
  deriving DecidableEq, Repr

/-- `pkg/types.WorkerInfo` (name and bindings; timestamps unused). -/
structure WorkerInfo where
  name : String
  bindings : List Binding
  deriving DecidableEq, Repr

/-- `pkg/types.DeletionPlan`. -/
structure DeletionPlan where
  worker : WorkerInfo
  resourcesToDelete : List ResourceUsage
  hasSharedResources : Bool
  deleteShared : Bool
  deleteExclusiveOnly : Bool
  deriving DecidableEq, Repr

/-- `pkg/types.DeletionResult` (errors as their message strings). -/
structure DeletionResult where
  success : Bool
  workerDeleted : Bool
  resourcesDeleted : List String
  resourcesSkipped : List String
  errors : List String
  deriving DecidableEq, Repr

/-- `analyzer.getResourceKey`. -/
def getResourceKey (b : Binding) : String :=
  match b.type with
  | .kv => "kv:" ++ b.namespaceID
  | .r2 => "r2:" ++ b.bucketName
  | .d1 => "d1:" ++ b.databaseID
  | .durableObject => "do:" ++ b.className ++ ":" ++ b.scriptName
  | .service => "service:" ++ b.scriptName
  | .queue => "queue:" ++ b.queueName
  | _ => ""

/-- `analyzer.getResourceID`. -/
def getResourceID (b : Binding) : String :=
  match b.type with
  | .kv => b.namespaceID
  | .r2 => b.bucketName
  | .d1 => b.databaseID
  | .durableObject => b.className
  | .service => b.scriptName
  | .queue => b.queueName
  | _ => b.name

/-- `analyzer.getResourceName`. -/
def getResourceName (b : Binding) : String :=
  match b.type with
  | .kv => b.name
  | .r2 => b.bucketName
  | .d1 => b.databaseName
  | .durableObject => b.className
  | .service => b.scriptName
  | .queue => b.queueName
  | _ => b.name

/-- `analyzer.enrichResourceName`; the client lookups
`GetKVNamespaceTitle` / `GetD1DatabaseName` are oracles (`none` = the
lookup errored, in which case the current name is kept). -/
def enrichResourceName (kvTitle d1Name : String → Option String)
    (b : Binding) (currentName : String) : String :=
  if currentName ≠ "" ∧ currentName ≠ b.name then currentName
  else
    match b.type with
    | .kv => (kvTitle b.namespaceID).getD currentName
    | .d1 => (d1Name b.databaseID).getD currentName
    | _ => currentName

/-- `analyzer.calculateRiskLevel`: counts entries of `usedBy` different
from the target (occurrences, as in the Go loop). -/
def calculateRiskLevel (usedBy : List String) (targetWorker : String) : RiskLevel :=
  let otherCount := (usedBy.filter (fun w => decide (w ≠ targetWorker))).length
  if otherCount = 0 then RiskLevelSafe
  else if otherCount ≤ 2 then RiskLevelCaution
  else RiskLevelDanger

/-- The whole-account index `resourceMap` (Go `map[string]*ResourceUsage`,
used only through lookup and in-place update, so an association list with
unique keys is an adequate model). -/
abbrev ResMap := List (String × ResourceUsage)

/-- Lookup in the index. -/
def mapFind : ResMap → String → Option ResourceUsage
  | [], _ => none
  | (k', u) :: rest, k => if k' = k then some u else mapFind rest k

/-- Insert or replace the entry at a key. -/
def mapSet : ResMap → String → ResourceUsage → ResMap
  | [], k, u => [(k, u)]
  | (k', u') :: rest, k, u =>
      if k' = k then (k, u) :: rest else (k', u') :: mapSet rest k u

/-- One step of the index-building loop of `AnalyzeDependencies`
(lines 59–77): skip keyless bindings, create the entry on first sighting
(Go initializes `UsedBy` to `[]` and `RiskLevel` to the zero value 0,
then appends the worker), append the worker name on every sighting. -/
def indexBinding (w : String) (m : ResMap) (b : Binding) : ResMap :=
  let key := getResourceKey b
  if key = "" then m
  else
    match mapFind m key with
    | none =>
        mapSet m key ⟨getResourceID b, b.type, getResourceName b, [w], RiskLevelSafe⟩
    | some u =>
        mapSet m key ⟨u.resourceID, u.resourceType, u.resourceName, u.usedBy ++ [w], u.riskLevel⟩

/-- The whole-account scan: each worker is a name together with `some`
bindings, or `none` when `GetWorker` failed (such workers are skipped). -/
def buildResourceMap (workers : List (String × Option (List Binding))) : ResMap :=
  workers.foldl
    (fun m wk =>
      match wk.2 with
      | none => m
      | some bs => bs.foldl (indexBinding wk.1) m) []

/-- The target pass of `AnalyzeDependencies` (lines 83–107).  The Go code
holds `*ResourceUsage` pointers into the map, so the name/risk updates on
an existing entry are visible to later bindings with the same key; the
map state is threaded to model this.  A synthesized entry (absent key) is
not written back to the map, exactly as in Go. -/
def analyzeGo (enr : Binding → String → String) (target : String) :
    List Binding → ResMap → List ResourceUsage × ResMap
  | [], m => ([], m)
  | b :: bs, m =>
    let key := getResourceKey b
    if key = "" then analyzeGo enr target bs m
    else
      match mapFind m key with
      | some u =>
          let nm := enr b u.resourceName
          let lvl := calculateRiskLevel u.usedBy target
          let u' : ResourceUsage := ⟨u.resourceID, u.resourceType, nm, u.usedBy, lvl⟩
          let rest := analyzeGo enr target bs (mapSet m key u')
          (u' :: rest.1, rest.2)
      | none =>
          let u0 : ResourceUsage :=
            ⟨getResourceID b, b.type, getResourceName b, [target], RiskLevelSafe⟩
          let nm := enr b u0.resourceName
          let lvl := calculateRiskLevel u0.usedBy target
          let u' : ResourceUsage := ⟨u0.resourceID, u0.resourceType, nm, u0.usedBy, lvl⟩
          let rest := analyzeGo enr target bs m
          (u' :: rest.1, rest.2)

/-- `analyzer.AnalyzeDependencies`: build the whole-account index, then
process the target worker's bindings against it. -/
def AnalyzeDependencies (kvTitle d1Name : String → Option String)
    (allWorkers : List (String × Option (List Binding)))
    (targetName : String) (targetBindings : List Binding) : List ResourceUsage :=
  (analyzeGo (enrichResourceName kvTitle d1Name) targetName targetBindings
    (buildResourceMap allWorkers)).1

/-- One iteration of the `CreateDeletionPlan` loop (lines 219–230),
on the accumulated (hasSharedResources, resourcesToDelete) pair. -/
def planStep (exclusiveOnly : Bool) (acc : Bool × List ResourceUsage)
    (r : ResourceUsage) : Bool × List ResourceUsage :=
  let hasShared := if r.riskLevel ≠ RiskLevelSafe then true else acc.1
  if exclusiveOnly = true ∧ r.riskLevel ≠ RiskLevelSafe then (hasShared, acc.2)
  else (hasShared, acc.2 ++ [r])

/-- `analyzer.CreateDeletionPlan` (`DeleteShared` keeps its zero value
`false`, as in Go). -/
def CreateDeletionPlan (worker : WorkerInfo) (resources : List ResourceUsage)
    (exclusiveOnly : Bool) : DeletionPlan :=
  let st := resources.foldl (planStep exclusiveOnly) (false, [])
  ⟨worker, st.2, st.1, false, exclusiveOnly⟩

/-! ### The deletion executor (`internal/deleter`) -/

/-- A remote delete call, as issued by the API client
(`DeleteWorker`, `DeleteKVNamespace`, `DeleteR2Bucket`,
`DeleteD1Database`). -/
inductive ApiCall where
  | deleteWorker (name : String)
  | deleteKV (id : String)
  | deleteR2 (name : String)
  | deleteD1 (id : String)
  deriving DecidableEq, Repr

/-- Outcome reported by the remote provider for a delete call: success,
item already absent, or some other remote error. -/
inductive RemoteOutcome where
  | ok
  | notFound
  | remoteError (msg : String)
  deriving DecidableEq, Repr

/-- Response oracle standing in for the Cloudflare API: what the remote
side answers to each delete call. -/
structure RemoteApi where
  deleteWorkerResp : String → RemoteOutcome
  deleteKVResp : String → RemoteOutcome
  deleteR2Resp : String → RemoteOutcome
  deleteD1Resp : String → RemoteOutcome

/-- `api.Client.DeleteWorker`: any non-nil error from the library call is
wrapped and returned — the client does not inspect the error kind, so a
not-found outcome is surfaced as an error too (client.go lines 122–135). -/
def DeleteWorker (api : RemoteApi) (name : String) : Option String :=
  match api.deleteWorkerResp name with
  | .ok => none
  | .notFound => some "failed to delete worker: not found"
  | .remoteError m => some ("failed to delete worker: " ++ m)

/-- `api.Client.DeleteKVNamespace` (client.go lines 137–147): wraps every
error, including not-found. -/
def DeleteKVNamespace (api : RemoteApi) (namespaceID : String) : Option String :=
  match api.deleteKVResp namespaceID with
  | .ok => none
  | .notFound => some "failed to delete KV namespace: not found"
  | .remoteError m => some ("failed to delete KV namespace: " ++ m)

/-- `api.Client.DeleteR2Bucket` (client.go lines 149–158). -/
def DeleteR2Bucket (api : RemoteApi) (bucketName : String) : Option String :=
  match api.deleteR2Resp bucketName with
  | .ok => none
  | .notFound => some "failed to delete R2 bucket: not found"
  | .remoteError m => some ("failed to delete R2 bucket: " ++ m)

/-- `api.Client.DeleteD1Database` (client.go lines 160–169). -/
def DeleteD1Database (api : RemoteApi) (databaseID : String) : Option String :=
  match api.deleteD1Resp databaseID with
  | .ok => none
  | .notFound => some "failed to delete D1 database: not found"
  | .remoteError m => some ("failed to delete D1 database: " ++ m)

/-- `deleter.deleteResource` (deleter.go lines 77–105): kind dispatch;
durable objects, service bindings and queues are no-op successes. -/
def deleteResource (api : RemoteApi) (r : ResourceUsage) : Option String :=
  match r.resourceType with
  | .kv => DeleteKVNamespace api r.resourceID
  | .r2 => DeleteR2Bucket api r.resourceID
  | .d1 => DeleteD1Database api r.resourceID
  | .durableObject => none
  | .service => none
  | .queue => none
  | _ => some "unsupported resource type"

/-- The remote calls issued by one `deleteResource` invocation: exactly
one call for KV/R2/D1, none for the no-op kinds and the unsupported
default (which errors without calling out). -/
def deleteResourceCall (r : ResourceUsage) : List ApiCall :=
  match r.resourceType with
  | .kv => [ApiCall.deleteKV r.resourceID]
  | .r2 => [ApiCall.deleteR2 r.resourceID]
  | .d1 => [ApiCall.deleteD1 r.resourceID]
  | _ => []

/-- One iteration of the resource loop of `Execute` (deleter.go lines
52–66), carried out on the accumulated result and call trace. -/
def execStep (api : RemoteApi) (deleteShared : Bool)
    (acc : DeletionResult × List ApiCall) (r : ResourceUsage) :
    DeletionResult × List ApiCall :=
  let res := acc.1
  let calls := acc.2
  if deleteShared = false ∧ r.riskLevel ≠ RiskLevelSafe then
    (⟨res.success, res.workerDeleted, res.resourcesDeleted,
      res.resourcesSkipped ++ [r.resourceName], res.errors⟩, calls)
  else
    match deleteResource api r with
    | some e =>
        (⟨res.success, res.workerDeleted, res.resourcesDeleted,
          res.resourcesSkipped ++ [r.resourceName], res.errors ++ [e]⟩,
         calls ++ deleteResourceCall r)
    | none =>
        (⟨res.success, res.workerDeleted, res.resourcesDeleted ++ [r.resourceName],
          res.resourcesSkipped, res.errors⟩,
         calls ++ deleteResourceCall r)

/-- `deleter.Execute` (deleter.go lines 25–74), returning the
`DeletionResult` together with the list of remote calls issued.
Dry-run simulates; real mode deletes the worker first (aborting on
failure with that single error), then runs the resource loop, and
finally clears `Success` when any error was recorded. -/
def Execute (api : RemoteApi) (dryRun : Bool) (plan : DeletionPlan) :
    DeletionResult × List ApiCall :=
  if dryRun then
    (⟨true, true,
      plan.resourcesToDelete.foldl (fun acc r => acc ++ [r.resourceName]) [],
      [], []⟩, [])
  else
    match DeleteWorker api plan.worker.name with
    | some e =>
        (⟨false, false, [], [], [e]⟩, [ApiCall.deleteWorker plan.worker.name])
    | none =>
        let st := plan.resourcesToDelete.foldl (execStep api plan.deleteShared)
          (⟨true, true, [], [], []⟩, [ApiCall.deleteWorker plan.worker.name])
        let res := st.1
        let finalSuccess := if res.errors.length > 0 then false else res.success
        (⟨finalSuccess, res.workerDeleted, res.resourcesDeleted,
          res.resourcesSkipped, res.errors⟩, st.2)

/-! ### Characterization of `CreateDeletionPlan` -/

/-- The plan loop computes: flag = initial flag OR some resource is
non-Safe; kept list = accumulator ++ (all resources, or only the Safe
ones in exclusive-only mode). -/
theorem planStep_foldl (eo : Bool) :
    ∀ (rs : List ResourceUsage) (b : Bool) (l : List ResourceUsage),
      rs.foldl (planStep eo) (b, l) =
        ((b || rs.any (fun r => decide (r.riskLevel ≠ RiskLevelSafe))),
         l ++ (if eo = true then
                 rs.filter (fun r => decide (r.riskLevel = RiskLevelSafe))
               else rs))
  | [], b, l => by simp
  | r :: rs, b, l => by
      simp only [List.foldl_cons, List.any_cons, List.filter_cons]
      rw [planStep_foldl eo rs]
      by_cases h : r.riskLevel = RiskLevelSafe
      · simp [planStep, h]
        cases eo <;> simp
      · simp [planStep, h]
        cases eo <;> simp

/-- A concrete shared (Caution) resource usage. -/
def cautionKV : ResourceUsage := ⟨"ns1", .kv, "shared-kv", ["t", "other"], RiskLevelCaution⟩

/-- Claim C1 (counterexample): on the plan built with exclusiveOnly=true from a
single Caution resource, `hasSharedResources` is true although no entry
of `resourcesToDelete` (which is empty) is above Safe — so the flag is
not equivalent to "some included entry is above Safe", and an
exclusive-only plan can have the flag set. -/
theorem c1_flag_counterexample :
    ¬ (((CreateDeletionPlan ⟨"t", []⟩ [cautionKV] true).hasSharedResources = true) ↔
        ∃ r ∈ (CreateDeletionPlan ⟨"t", []⟩ [cautionKV] true).resourcesToDelete,
          RiskLevelSafe < r.riskLevel) := by
  decide

/-- Claim C1 (amended): `hasSharedResources` is true iff some entry of the
*input* resource list is above Safe (whether or not exclusive-only mode
filters it out of the plan); and with exclusiveOnly=true every entry of
`resourcesToDelete` is Safe.  (`riskLevel ≠ RiskLevelSafe` coincides with
`RiskLevelSafe < riskLevel` on the `Nat` encoding.) -/
theorem c1_amended_hasShared_iff_input (w : WorkerInfo)
    (rs : List ResourceUsage) (eo : Bool) :
    ((CreateDeletionPlan w rs eo).hasSharedResources = true ↔
      ∃ r ∈ rs, r.riskLevel ≠ RiskLevelSafe) ∧
    (eo = true → ∀ r ∈ (CreateDeletionPlan w rs eo).resourcesToDelete,
      r.riskLevel = RiskLevelSafe) := by
  unfold CreateDeletionPlan
  rw [planStep_foldl]
  constructor
  · simp [List.any_eq_true]
  · intro heo r hr
    simp only [heo, if_pos rfl, List.nil_append] at hr
    have := List.of_mem_filter hr
    simpa using this

/-- Claim C1 (witness): the amended statement at a concrete input. -/
theorem c1_amended_witness :
    (((CreateDeletionPlan ⟨"t", []⟩ [cautionKV] true).hasSharedResources = true ↔
       ∃ r ∈ [cautionKV], r.riskLevel ≠ RiskLevelSafe)) ∧
    (∀ r ∈ (CreateDeletionPlan ⟨"t", []⟩ [cautionKV] true).resourcesToDelete,
      r.riskLevel = RiskLevelSafe) :=
  ⟨(c1_amended_hasShared_iff_input ⟨"t", []⟩ [cautionKV] true).1,
   (c1_amended_hasShared_iff_input ⟨"t", []⟩ [cautionKV] true).2 rfl⟩

/-! ### Risk classification -/

/-- Claim C2 (code evaluation at the failing input): the usage set
`["w1","w1","w1"]` contains exactly one distinct worker name `"w1"`,
different from the target `"t"` — per the claim this must classify as
Caution (1–2 distinct other workers) — yet `calculateRiskLevel` counts
the three occurrences and returns Danger. -/
theorem c2_occurrence_counting_bug :
    (∀ w ∈ ["w1", "w1", "w1"], w = "w1") ∧ ("w1" : String) ≠ "t" ∧
    calculateRiskLevel ["w1", "w1", "w1"] "t" = RiskLevelDanger ∧
    RiskLevelDanger ≠ RiskLevelCaution := by
  decide

/-- Claim C9: inserting a worker name different from the target anywhere in
the usage set never lowers the risk level (hence appending one never
lowers it, and removing one never raises it), under the numeric order
Safe = 0 < Caution = 1 < Danger = 2. -/
theorem c9_calculateRiskLevel_monotone (l₁ l₂ : List String) (w target : String)
    (h : w ≠ target) :
    calculateRiskLevel (l₁ ++ l₂) target ≤ calculateRiskLevel (l₁ ++ w :: l₂) target := by
  have key : (List.filter (fun x => decide (x ≠ target)) (l₁ ++ w :: l₂)).length =
      (List.filter (fun x => decide (x ≠ target)) (l₁ ++ l₂)).length + 1 := by
    simp [List.filter_append, List.filter_cons, h]
    omega
  simp only [calculateRiskLevel]
  rw [key]
  have mono : ∀ c : Nat,
      (if c = 0 then RiskLevelSafe else if c ≤ 2 then RiskLevelCaution else RiskLevelDanger) ≤
      (if c + 1 = 0 then RiskLevelSafe
       else if c + 1 ≤ 2 then RiskLevelCaution else RiskLevelDanger) := by
    intro c
    unfold RiskLevelSafe RiskLevelCaution RiskLevelDanger
    split_ifs <;> first | decide | omega | (simp_all <;> omega)
  exact mono _

/-- Claim C9 (witness): concrete instance with `l₁ = []`, `l₂ = ["a"]`,
inserted worker `"b"`, target `"t"`. -/
theorem c9_monotone_witness :
    calculateRiskLevel ["a"] "t" ≤ calculateRiskLevel ["b", "a"] "t" :=
  c9_calculateRiskLevel_monotone [] ["a"] "b" "t" (by decide)

/-! ### Characterization of the executor loop -/

/-- The contributions of the resource loop, computed by structural
recursion: (deleted names, skipped names, error messages, calls issued). -/
def execResources (api : RemoteApi) (ds : Bool) :
    List ResourceUsage → List String × List String × List String × List ApiCall
  | [] => ([], [], [], [])
  | r :: rs =>
    let rest := execResources api ds rs
    if ds = false ∧ r.riskLevel ≠ RiskLevelSafe then
      (rest.1, r.resourceName :: rest.2.1, rest.2.2.1, rest.2.2.2)
    else
      match deleteResource api r with
      | some e =>
          (rest.1, r.resourceName :: rest.2.1, e :: rest.2.2.1,
           deleteResourceCall r ++ rest.2.2.2)
      | none =>
          (r.resourceName :: rest.1, rest.2.1, rest.2.2.1,
           deleteResourceCall r ++ rest.2.2.2)

/-- The executor fold equals the initial accumulator extended with the
loop contributions. -/
theorem execStep_foldl (api : RemoteApi) (ds : Bool) :
    ∀ (rs : List ResourceUsage) (res : DeletionResult) (calls : List ApiCall),
      rs.foldl (execStep api ds) (res, calls) =
        (⟨res.success, res.workerDeleted,
          res.resourcesDeleted ++ (execResources api ds rs).1,
          res.resourcesSkipped ++ (execResources api ds rs).2.1,
          res.errors ++ (execResources api ds rs).2.2.1⟩,
         calls ++ (execResources api ds rs).2.2.2)
  | [], res, calls => by simp [execResources]
  | r :: rs, res, calls => by
      by_cases h : ds = false ∧ r.riskLevel ≠ RiskLevelSafe
      · simp only [List.foldl_cons, execStep, if_pos h]
        rw [execStep_foldl api ds rs]
        simp [execResources, if_pos h, List.append_assoc]
      · cases hd : deleteResource api r with
        | some e =>
            simp only [List.foldl_cons, execStep, if_neg h, hd]
            rw [execStep_foldl api ds rs]
            simp [execResources, if_neg h, hd, List.append_assoc]
        | none =>
            simp only [List.foldl_cons, execStep, if_neg h, hd]
            rw [execStep_foldl api ds rs]
            simp [execResources, if_neg h, hd, List.append_assoc]

/-- Loop contributions distribute over list append. -/
theorem execResources_append (api : RemoteApi) (ds : Bool) :
    ∀ (l₁ l₂ : List ResourceUsage),
      execResources api ds (l₁ ++ l₂) =
        ((execResources api ds l₁).1 ++ (execResources api ds l₂).1,
         (execResources api ds l₁).2.1 ++ (execResources api ds l₂).2.1,
         (execResources api ds l₁).2.2.1 ++ (execResources api ds l₂).2.2.1,
         (execResources api ds l₁).2.2.2 ++ (execResources api ds l₂).2.2.2)
  | [], l₂ => by simp [execResources]
  | r :: l₁, l₂ => by
      by_cases h : ds = false ∧ r.riskLevel ≠ RiskLevelSafe
      · simp only [List.cons_append, execResources, if_pos h, List.append_eq]
        rw [execResources_append api ds l₁ l₂]
      · cases hd : deleteResource api r with
        | some e =>
            simp only [List.cons_append, execResources, if_neg h, hd, List.append_eq]
            rw [execResources_append api ds l₁ l₂]
            simp [List.append_assoc]
        | none =>
            simp only [List.cons_append, execResources, if_neg h, hd, List.append_eq]
            rw [execResources_append api ds l₁ l₂]
            simp [List.append_assoc]

/-- Real-mode `Execute` when the worker delete succeeds. -/
theorem Execute_real_ok (api : RemoteApi) (plan : DeletionPlan)
    (h : api.deleteWorkerResp plan.worker.name = .ok) :
    Execute api false plan =
      (⟨(if ((execResources api plan.deleteShared plan.resourcesToDelete).2.2.1).length > 0
          then false else true),
        true,
        (execResources api plan.deleteShared plan.resourcesToDelete).1,
        (execResources api plan.deleteShared plan.resourcesToDelete).2.1,
        (execResources api plan.deleteShared plan.resourcesToDelete).2.2.1⟩,
       ApiCall.deleteWorker plan.worker.name ::
         (execResources api plan.deleteShared plan.resourcesToDelete).2.2.2) := by
  simp only [Execute, DeleteWorker, h]
  rw [execStep_foldl]
  simp

/-- Real-mode `Execute` when the worker delete fails. -/
theorem Execute_real_fail (api : RemoteApi) (plan : DeletionPlan) (e : String)
    (h : DeleteWorker api plan.worker.name = some e) :
    Execute api false plan =
      (⟨false, false, [], [], [e]⟩, [ApiCall.deleteWorker plan.worker.name]) := by
  simp [Execute, h]

/-- Claim C4: in real mode, if the worker-script delete fails, `Execute` stops
immediately: Success=false, WorkerDeleted=false, exactly one recorded
error, empty ResourcesDeleted, and the only remote call issued is the
worker delete itself (zero resource-level delete calls). -/
theorem c4_worker_delete_fail_aborts (api : RemoteApi) (plan : DeletionPlan)
    (h : api.deleteWorkerResp plan.worker.name ≠ RemoteOutcome.ok) :
    (Execute api false plan).1.success = false ∧
    (Execute api false plan).1.workerDeleted = false ∧
    (Execute api false plan).1.errors.length = 1 ∧
    (Execute api false plan).1.resourcesDeleted = [] ∧
    (Execute api false plan).2 = [ApiCall.deleteWorker plan.worker.name] := by
  cases ho : api.deleteWorkerResp plan.worker.name with
  | ok => exact absurd ho h
  | notFound => simp [Execute, DeleteWorker, ho]
  | remoteError m => simp [Execute, DeleteWorker, ho]

/-- A worker whose delete call always fails remotely; resources succeed. -/
def apiWorkerFails : RemoteApi :=
  ⟨fun _ => .remoteError "boom", fun _ => .ok, fun _ => .ok, fun _ => .ok⟩

/-- A Safe KV resource usage entry. -/
def safeKV : ResourceUsage := ⟨"ns9", .kv, "my-kv", ["t"], RiskLevelSafe⟩

/-- A Safe D1 resource usage entry. -/
def safeD1 : ResourceUsage := ⟨"db7", .d1, "my-db", ["t"], RiskLevelSafe⟩

/-- A plan for worker `"t"` holding one Safe KV and one Safe D1 entry,
with deleteShared false and exclusive-only false. -/
def planTwo : DeletionPlan := ⟨⟨"t", []⟩, [safeKV, safeD1], false, false, false⟩

/-- Claim C4 (witness): the abort behavior at a concrete failing API. -/
theorem c4_witness :
    (Execute apiWorkerFails false planTwo).1.success = false ∧
    (Execute apiWorkerFails false planTwo).1.workerDeleted = false ∧
    (Execute apiWorkerFails false planTwo).1.errors.length = 1 ∧
    (Execute apiWorkerFails false planTwo).1.resourcesDeleted = [] ∧
    (Execute apiWorkerFails false planTwo).2 =
      [ApiCall.deleteWorker planTwo.worker.name] :=
  c4_worker_delete_fail_aborts apiWorkerFails planTwo (by decide)

/-- The dry-run name fold is a map. -/
theorem foldl_names (l : List ResourceUsage) :
    ∀ acc : List String,
      l.foldl (fun acc r => acc ++ [r.resourceName]) acc =
        acc ++ l.map (fun r => r.resourceName) := by
  induction l with
  | nil => simp
  | cons r l ih => intro acc; simp [ih, List.append_assoc]

/-- Claim C7: dry-run mode issues no remote calls and reports WorkerDeleted=true,
ResourcesDeleted = the display names of all planned resources in plan
order, no skips, no errors (hence Success=true). -/
theorem c7_dry_run (api : RemoteApi) (plan : DeletionPlan) :
    Execute api true plan =
      (⟨true, true, plan.resourcesToDelete.map (fun r => r.resourceName), [], []⟩,
       []) := by
  simp [Execute, foldl_names]

/-- Claim C5: after a successful worker delete, a failing resource delete is
recorded as an error with the resource marked skipped, the loop continues
through the remaining resources in plan order (the result decomposes as
the contributions of the prefix, the failing resource, and the suffix),
and Success is false iff at least one error was recorded. -/
theorem c5_resource_failure_continues :
    (∀ (api : RemoteApi) (plan : DeletionPlan) (l₁ l₂ : List ResourceUsage)
        (r : ResourceUsage) (e : String),
      api.deleteWorkerResp plan.worker.name = RemoteOutcome.ok →
      plan.resourcesToDelete = l₁ ++ r :: l₂ →
      (plan.deleteShared = true ∨ r.riskLevel = RiskLevelSafe) →
      deleteResource api r = some e →
      (Execute api false plan).1.errors =
        (execResources api plan.deleteShared l₁).2.2.1 ++
          e :: (execResources api plan.deleteShared l₂).2.2.1 ∧
      (Execute api false plan).1.resourcesSkipped =
        (execResources api plan.deleteShared l₁).2.1 ++
          r.resourceName :: (execResources api plan.deleteShared l₂).2.1 ∧
      (Execute api false plan).1.resourcesDeleted =
        (execResources api plan.deleteShared l₁).1 ++
          (execResources api plan.deleteShared l₂).1 ∧
      (Execute api false plan).1.success = false) ∧
    (∀ (api : RemoteApi) (plan : DeletionPlan),
      api.deleteWorkerResp plan.worker.name = RemoteOutcome.ok →
      ((Execute api false plan).1.success = false ↔
        (Execute api false plan).1.errors ≠ [])) := by
  constructor
  · intro api plan l₁ l₂ r e hok hplan hpol hdel
    have hcond : ¬ (plan.deleteShared = false ∧ r.riskLevel ≠ RiskLevelSafe) := by
      rcases hpol with h | h <;> simp [h]
    rw [Execute_real_ok api plan hok]
    simp only [hplan, execResources_append]
    simp only [execResources, if_neg hcond, hdel]
    refine ⟨by simp, by simp, by simp, ?_⟩
    simp [List.length_append]
  · intro api plan hok
    rw [Execute_real_ok api plan hok]
    cases hE : (execResources api plan.deleteShared plan.resourcesToDelete).2.2.1 with
    | nil => simp [hE]
    | cons a t => simp [hE]

/-- An API where deleting KV namespace `"ns9"` fails remotely and
everything else succeeds. -/
def apiKVFails : RemoteApi :=
  ⟨fun _ => .ok,
   fun id => if id = "ns9" then .remoteError "boom" else .ok,
   fun _ => .ok, fun _ => .ok⟩

/-- Claim C5 (witness): at `apiKVFails` on `planTwo`, the KV failure is recorded
and the D1 delete still happens; success is false. -/
theorem c5_witness :
    (Execute apiKVFails false planTwo).1.errors =
      ["failed to delete KV namespace: boom"] ∧
    (Execute apiKVFails false planTwo).1.resourcesSkipped = ["my-kv"] ∧
    (Execute apiKVFails false planTwo).1.resourcesDeleted = ["my-db"] ∧
    (Execute apiKVFails false planTwo).1.success = false := by
  have h := c5_resource_failure_continues.1 apiKVFails planTwo [] [safeD1] safeKV
    "failed to delete KV namespace: boom" rfl rfl (Or.inr rfl) rfl
  simpa [execResources, deleteResource, DeleteD1Database, apiKVFails, safeD1,
    safeKV, planTwo] using h

/-- An API where every KV-namespace delete reports not-found and all
other calls succeed. -/
def apiKVAbsent : RemoteApi :=
  ⟨fun _ => .ok, fun _ => .notFound, fun _ => .ok, fun _ => .ok⟩

/-- A plan for worker `"t"` with a single Safe KV resource. -/
def planOneKV : DeletionPlan := ⟨⟨"t", []⟩, [safeKV], false, false, false⟩

/-- Claim C6 (counterexample): a KV delete that fails because the remote reports
not-found IS recorded as an error (the resource is not deleted and the run
is marked unsuccessful) — the executor does not treat already-absent as
success. -/
theorem c6_not_found_counterexample :
    (Execute apiKVAbsent false planOneKV).1.errors =
      ["failed to delete KV namespace: not found"] ∧
    (Execute apiKVAbsent false planOneKV).1.resourcesDeleted = [] ∧
    (Execute apiKVAbsent false planOneKV).1.resourcesSkipped = ["my-kv"] ∧
    (Execute apiKVAbsent false planOneKV).1.success = false := by
  decide

/-- Claim C6 (amended): the client wraps a not-found outcome into an error like
any other failure, and the executor records it as a per-item error with
the resource skipped and overall Success=false — already-absent is NOT
mapped to success. -/
theorem c6_amended_not_found_is_error :
    (∀ (api : RemoteApi) (name : String),
      api.deleteWorkerResp name = RemoteOutcome.notFound →
      DeleteWorker api name = some "failed to delete worker: not found") ∧
    (∀ (api : RemoteApi) (id : String),
      api.deleteKVResp id = RemoteOutcome.notFound →
      DeleteKVNamespace api id = some "failed to delete KV namespace: not found") ∧
    (∀ (api : RemoteApi) (name : String),
      api.deleteR2Resp name = RemoteOutcome.notFound →
      DeleteR2Bucket api name = some "failed to delete R2 bucket: not found") ∧
    (∀ (api : RemoteApi) (id : String),
      api.deleteD1Resp id = RemoteOutcome.notFound →
      DeleteD1Database api id = some "failed to delete D1 database: not found") ∧
    (∀ (api : RemoteApi) (plan : DeletionPlan) (l₁ l₂ : List ResourceUsage)
        (r : ResourceUsage),
      api.deleteWorkerResp plan.worker.name = RemoteOutcome.ok →
      plan.resourcesToDelete = l₁ ++ r :: l₂ →
      (plan.deleteShared = true ∨ r.riskLevel = RiskLevelSafe) →
      r.resourceType = BindingType.kv →
      api.deleteKVResp r.resourceID = RemoteOutcome.notFound →
      r.resourceName ∈ (Execute api false plan).1.resourcesSkipped ∧
      (Execute api false plan).1.errors ≠ [] ∧
      (Execute api false plan).1.success = false) := by
  refine ⟨?_, ?_, ?_, ?_, ?_⟩
  · intro api name h; simp [DeleteWorker, h]
  · intro api id h; simp [DeleteKVNamespace, h]
  · intro api name h; simp [DeleteR2Bucket, h]
  · intro api id h; simp [DeleteD1Database, h]
  · intro api plan l₁ l₂ r hok hplan hpol htype hresp
    have hcond : ¬ (plan.deleteShared = false ∧ r.riskLevel ≠ RiskLevelSafe) := by
      rcases hpol with h | h <;> simp [h]
    have hdel : deleteResource api r = some "failed to delete KV namespace: not found" := by
      simp [deleteResource, htype, DeleteKVNamespace, hresp]
    rw [Execute_real_ok api plan hok]
    simp only [hplan, execResources_append, execResources, if_neg hcond, hdel]
    refine ⟨by simp, by simp, ?_⟩
    simp [List.length_append]

/-- Claim C6 (witness): the amended statement at the concrete not-found API. -/
theorem c6_amended_witness :
    DeleteKVNamespace apiKVAbsent "ns9" =
      some "failed to delete KV namespace: not found" ∧
    ("my-kv" ∈ (Execute apiKVAbsent false planOneKV).1.resourcesSkipped ∧
     (Execute apiKVAbsent false planOneKV).1.errors ≠ [] ∧
     (Execute apiKVAbsent false planOneKV).1.success = false) :=
  ⟨c6_amended_not_found_is_error.2.1 apiKVAbsent "ns9" rfl,
   c6_amended_not_found_is_error.2.2.2.2 apiKVAbsent planOneKV [] [] safeKV
     rfl rfl (Or.inr rfl) rfl rfl⟩

/-- The target pass yields one entry per binding with a nonempty key. -/
theorem analyzeGo_length (enr : Binding → String → String) (target : String) :
    ∀ (bs : List Binding) (m : ResMap),
      (analyzeGo enr target bs m).1.length =
        (bs.filter (fun b => decide (getResourceKey b ≠ ""))).length
  | [], m => by simp [analyzeGo]
  | b :: bs, m => by
      by_cases hk : getResourceKey b = ""
      · simp [analyzeGo, hk, analyzeGo_length enr target bs m]
      · cases hfind : mapFind m (getResourceKey b) with
        | some u =>
            simp [analyzeGo, hk, hfind, analyzeGo_length enr target bs _]
        | none =>
            simp [analyzeGo, hk, hfind, analyzeGo_length enr target bs _]

/-- With deleteShared=true the loop issues the per-entry calls of every
planned resource, in order, regardless of the responses. -/
theorem execResources_calls_all (api : RemoteApi) :
    ∀ rs : List ResourceUsage,
      (execResources api true rs).2.2.2 = rs.bind deleteResourceCall
  | [] => by simp [execResources]
  | r :: rs => by
      have hcond : ¬ ((true : Bool) = false ∧ r.riskLevel ≠ RiskLevelSafe) := by simp
      cases hd : deleteResource api r with
      | some e => simp [execResources, hcond, hd, execResources_calls_all api rs]
      | none => simp [execResources, hcond, hd, execResources_calls_all api rs]

/-- Claim C10: the analysis list is keyed by binding, not deduplicated by
resource — it has one entry per keyed binding; with exclusiveOnly=false
the plan includes all of them; and in real mode (deleteShared=true) the
executor issues the delete calls of every planned entry, once per
occurrence, in plan order. -/
theorem c10_one_entry_per_binding :
    (∀ (enr : Binding → String → String) (target : String)
        (bs : List Binding) (m : ResMap),
      (analyzeGo enr target bs m).1.length =
        (bs.filter (fun b => decide (getResourceKey b ≠ ""))).length) ∧
    (∀ (w : WorkerInfo) (rs : List ResourceUsage),
      (CreateDeletionPlan w rs false).resourcesToDelete = rs) ∧
    (∀ (api : RemoteApi) (plan : DeletionPlan),
      api.deleteWorkerResp plan.worker.name = RemoteOutcome.ok →
      plan.deleteShared = true →
      (Execute api false plan).2 =
        ApiCall.deleteWorker plan.worker.name ::
          plan.resourcesToDelete.bind deleteResourceCall) := by
  refine ⟨fun enr target bs m => analyzeGo_length enr target bs m, ?_, ?_⟩
  · intro w rs
    simp [CreateDeletionPlan, planStep_foldl]
  · intro api plan hok hds
    rw [Execute_real_ok api plan hok]
    simp [hds, execResources_calls_all]

/-- A KV binding; used twice to model two bindings to the same namespace. -/
def dupKV : Binding := ⟨.kv, "KV_BIND", "nsdup", "", "", "", "", "", ""⟩

/-- The analysis entry arising from `dupKV` (no account scan, no
enrichment hit). -/
def dupUsage : ResourceUsage := ⟨"nsdup", .kv, "KV_BIND", ["t"], RiskLevelSafe⟩

/-- A plan containing the same KV resource twice, deleteShared=true. -/
def planDup : DeletionPlan := ⟨⟨"t", []⟩, [dupUsage, dupUsage], false, true, false⟩

/-- An API where every call succeeds. -/
def apiAllOk : RemoteApi := ⟨fun _ => .ok, fun _ => .ok, fun _ => .ok, fun _ => .ok⟩

/-- Claim C10 (witness): two bindings to namespace `"nsdup"` yield two analysis
entries, and executing the duplicated plan issues the KV delete twice. -/
theorem c10_witness :
    (AnalyzeDependencies (fun _ => none) (fun _ => none) [] "t" [dupKV, dupKV]).length = 2 ∧
    (Execute apiAllOk false planDup).2 =
      [ApiCall.deleteWorker "t", ApiCall.deleteKV "nsdup", ApiCall.deleteKV "nsdup"] := by
  constructor
  · have h := c10_one_entry_per_binding.1
      (enrichResourceName (fun _ => none) (fun _ => none)) "t" [dupKV, dupKV]
      (buildResourceMap [])
    simp only [AnalyzeDependencies]
    rw [h]
    decide
  · have h := c10_one_entry_per_binding.2.2 apiAllOk planDup rfl rfl
    simpa [planDup, dupUsage, deleteResourceCall] using h

/-! ### Lemmas about the resource map and the target pass -/

/-- Setting a key that is present leaves an absent key absent. -/
theorem mapFind_mapSet_of_none :
    ∀ (m : ResMap) (k k' : String) (u : ResourceUsage),
      mapFind m k = none → mapFind m k' ≠ none →
      mapFind (mapSet m k' u) k = none
  | [], k, k', u => by simp [mapFind]
  | (a, b) :: rest, k, k', u => by
      intro hk hk'
      have hak : ¬ a = k := by
        intro h
        simp [mapFind, h] at hk
      have hrest : mapFind rest k = none := by
        simpa [mapFind, hak] using hk
      by_cases hak' : a = k'
      · simp only [mapSet, if_pos hak', mapFind]
        have hkk : ¬ k' = k := fun hh => hak (hak'.trans hh)
        simp [hkk, hrest]
      · have hk'rest : mapFind rest k' ≠ none := by
          simpa [mapFind, hak'] using hk'
        simp only [mapSet, if_neg hak', mapFind, if_neg hak]
        exact mapFind_mapSet_of_none rest k k' u hrest hk'rest

/-- The target pass only updates keys that are already present, so an
absent key stays absent in the threaded map. -/
theorem analyzeGo_preserves_none (enr : Binding → String → String) (target : String) :
    ∀ (bs : List Binding) (m : ResMap) (k : String),
      mapFind m k = none → mapFind (analyzeGo enr target bs m).2 k = none
  | [], m, k => by simp [analyzeGo]
  | b :: bs, m, k => by
      intro h
      by_cases hk : getResourceKey b = ""
      · simp only [analyzeGo, if_pos hk]
        exact analyzeGo_preserves_none enr target bs m k h
      · cases hfind : mapFind m (getResourceKey b) with
        | none =>
            simp only [analyzeGo, if_neg hk, hfind]
            exact analyzeGo_preserves_none enr target bs m k h
        | some u =>
            simp only [analyzeGo, if_neg hk, hfind]
            exact analyzeGo_preserves_none enr target bs _ k
              (mapFind_mapSet_of_none m k (getResourceKey b) _ h (by simp [hfind]))

/-- The target pass distributes over append, threading the map. -/
theorem analyzeGo_append (enr : Binding → String → String) (target : String) :
    ∀ (l₁ l₂ : List Binding) (m : ResMap),
      analyzeGo enr target (l₁ ++ l₂) m =
        ((analyzeGo enr target l₁ m).1 ++
           (analyzeGo enr target l₂ (analyzeGo enr target l₁ m).2).1,
         (analyzeGo enr target l₂ (analyzeGo enr target l₁ m).2).2)
  | [], l₂, m => by simp [analyzeGo]
  | b :: l₁, l₂, m => by
      by_cases hk : getResourceKey b = ""
      · simp only [List.cons_append, analyzeGo, if_pos hk, List.append_eq]
        rw [analyzeGo_append enr target l₁ l₂ m]
      · cases hfind : mapFind m (getResourceKey b) with
        | some u =>
            simp only [List.cons_append, analyzeGo, if_neg hk, hfind, List.append_eq]
            rw [analyzeGo_append enr target l₁ l₂ _]
        | none =>
            simp only [List.cons_append, analyzeGo, if_neg hk, hfind, List.append_eq]
            rw [analyzeGo_append enr target l₁ l₂ m]

/-- Head step of the target pass at an absent (but nonempty) key: the
minimal usage record is synthesized and the map is left unchanged. -/
theorem analyzeGo_cons_none (enr : Binding → String → String) (target : String)
    (b : Binding) (bs : List Binding) (m : ResMap)
    (hk : ¬ getResourceKey b = "")
    (hfind : mapFind m (getResourceKey b) = none) :
    analyzeGo enr target (b :: bs) m =
      ((⟨getResourceID b, b.type, enr b (getResourceName b), [target],
          calculateRiskLevel [target] target⟩ : ResourceUsage) ::
         (analyzeGo enr target bs m).1,
       (analyzeGo enr target bs m).2) := by
  simp [analyzeGo, hk, hfind]

/-- A target-only usage set classifies as Safe. -/
theorem calculateRiskLevel_self (t : String) :
    calculateRiskLevel [t] t = RiskLevelSafe := by
  simp [calculateRiskLevel]

/-- Claim C8: a target binding whose key is absent from the whole-account index
contributes a synthesized entry whose reference set is exactly the target
worker, classified Safe; and any usage set whose members all equal the
target classifies as Safe. -/
theorem c8_absent_key_synthesizes :
    (∀ (kvT d1N : String → Option String)
        (workers : List (String × Option (List Binding)))
        (target : String) (l₁ : List Binding) (b : Binding) (l₂ : List Binding),
      getResourceKey b ≠ "" →
      mapFind (buildResourceMap workers) (getResourceKey b) = none →
      ∃ u ∈ AnalyzeDependencies kvT d1N workers target (l₁ ++ b :: l₂),
        u.usedBy = [target] ∧ u.riskLevel = RiskLevelSafe ∧
        u.resourceID = getResourceID b ∧ u.resourceType = b.type) ∧
    (∀ (l : List String) (t : String), (∀ w ∈ l, w = t) →
      calculateRiskLevel l t = RiskLevelSafe) := by
  constructor
  · intro kvT d1N workers target l₁ b l₂ hk habs
    simp only [AnalyzeDependencies]
    rw [analyzeGo_append]
    have h₁ : mapFind (analyzeGo (enrichResourceName kvT d1N) target l₁
        (buildResourceMap workers)).2 (getResourceKey b) = none :=
      analyzeGo_preserves_none _ target l₁ _ _ habs
    rw [analyzeGo_cons_none _ target b l₂ _ hk h₁]
    refine ⟨⟨getResourceID b, b.type,
        enrichResourceName kvT d1N b (getResourceName b), [target],
        calculateRiskLevel [target] target⟩, ?_, rfl, ?_, rfl, rfl⟩
    · simp
    · exact calculateRiskLevel_self target
  · intro l t h
    have hfilter : l.filter (fun w => decide (w ≠ t)) = [] := by
      rw [List.filter_eq_nil_iff]
      intro a ha
      simpa using h a ha
    simp only [calculateRiskLevel]
    rw [hfilter]
    simp

/-- A KV binding to a namespace absent from any index. -/
def orphanKV : Binding := ⟨.kv, "ORPHAN", "nsorphan", "", "", "", "", "", ""⟩

/-- Claim C8 (witness): with an empty account scan, the orphan binding yields a
synthesized Safe entry referencing only the target. -/
theorem c8_witness :
    (∃ u ∈ AnalyzeDependencies (fun _ => none) (fun _ => none) [] "t" [orphanKV],
       u.usedBy = ["t"] ∧ u.riskLevel = RiskLevelSafe ∧
       u.resourceID = getResourceID orphanKV ∧ u.resourceType = orphanKV.type) ∧
    calculateRiskLevel ["t", "t"] "t" = RiskLevelSafe := by
  constructor
  · have h := c8_absent_key_synthesizes.1 (fun _ => none) (fun _ => none)
      [] "t" [] orphanKV [] (by decide) rfl
    simpa using h
  · exact c8_absent_key_synthesizes.2 ["t", "t"] "t" (by decide)

/-! ### Which binding kinds are tracked -/

/-- The six binding kinds for which `getResourceKey` produces a key. -/
def keyedType (t : BindingType) : Prop :=
  t = .kv ∨ t = .r2 ∨ t = .d1 ∨ t = .durableObject ∨ t = .service ∨ t = .queue

/-- A binding with a nonempty key has one of the six keyed kinds. -/
theorem getResourceKey_keyedType (b : Binding) (h : getResourceKey b ≠ "") :
    keyedType b.type := by
  cases hb : b.type <;> simp_all [getResourceKey, keyedType]

/-- All entries of the map have keyed kinds. -/
def mapTypesOK (m : ResMap) : Prop := ∀ p ∈ m, keyedType p.2.resourceType

/-- A successful lookup returns an entry of the map. -/
theorem mapFind_mem : ∀ (m : ResMap) (k : String) (u : ResourceUsage),
    mapFind m k = some u → (k, u) ∈ m
  | [], k, u => by simp [mapFind]
  | (a, b) :: rest, k, u => by
      intro h
      by_cases hak : a = k
      · subst hak
        simp only [mapFind, if_pos rfl] at h
        have hb := Option.some.inj h
        subst hb
        exact List.mem_cons_self _ _
      · simp only [mapFind, if_neg hak] at h
        exact List.mem_cons_of_mem _ (mapFind_mem rest k u h)

/-- `mapSet` preserves the kind invariant when the new value is keyed. -/
theorem mapTypesOK_mapSet : ∀ (m : ResMap) (k : String) (u : ResourceUsage),
    mapTypesOK m → keyedType u.resourceType → mapTypesOK (mapSet m k u)
  | [], k, u => by
      intro hm hu p hp
      simp [mapSet] at hp
      subst hp
      exact hu
  | (a, b) :: rest, k, u => by
      intro hm hu p hp
      by_cases hak : a = k
      · simp only [mapSet, if_pos hak] at hp
        rcases List.mem_cons.mp hp with h | h
        · subst h; exact hu
        · exact hm p (List.mem_cons_of_mem _ h)
      · simp only [mapSet, if_neg hak] at hp
        rcases List.mem_cons.mp hp with h | h
        · subst h; exact hm (a, b) (List.mem_cons_self _ _)
        · exact mapTypesOK_mapSet rest k u
            (fun q hq => hm q (List.mem_cons_of_mem _ hq)) hu p h

/-- `indexBinding` preserves the kind invariant. -/
theorem mapTypesOK_indexBinding (w : String) (m : ResMap) (b : Binding)
    (hm : mapTypesOK m) : mapTypesOK (indexBinding w m b) := by
  by_cases hk : getResourceKey b = ""
  · simpa [indexBinding, hk] using hm
  · cases hfind : mapFind m (getResourceKey b) with
    | none =>
        simp only [indexBinding, if_neg hk, hfind]
        exact mapTypesOK_mapSet m _ _ hm (getResourceKey_keyedType b hk)
    | some u =>
        simp only [indexBinding, if_neg hk, hfind]
        exact mapTypesOK_mapSet m _ _ hm
          (hm (getResourceKey b, u) (mapFind_mem m _ u hfind))

/-- The inner binding fold preserves the kind invariant. -/
theorem mapTypesOK_foldl_bindings : ∀ (bs : List Binding) (w : String) (m : ResMap),
    mapTypesOK m → mapTypesOK (bs.foldl (indexBinding w) m)
  | [], w, m => fun hm => by simpa
  | b :: bs, w, m => fun hm => by
      simp only [List.foldl_cons]
      exact mapTypesOK_foldl_bindings bs w _ (mapTypesOK_indexBinding w m b hm)

/-- The worker fold preserves the kind invariant. -/
theorem mapTypesOK_foldl_workers :
    ∀ (ws : List (String × Option (List Binding))) (m : ResMap),
      mapTypesOK m →
      mapTypesOK (ws.foldl
        (fun m wk =>
          match wk.2 with
          | none => m
          | some bs => bs.foldl (indexBinding wk.1) m) m)
  | [], m => fun hm => by simpa
  | wk :: ws, m => fun hm => by
      simp only [List.foldl_cons]
      cases wk with
      | mk nme fetch =>
        cases fetch with
        | none => exact mapTypesOK_foldl_workers ws m hm
        | some bs =>
            exact mapTypesOK_foldl_workers ws _
              (mapTypesOK_foldl_bindings bs nme m hm)

/-- Every entry of the whole-account index has a keyed kind. -/
theorem mapTypesOK_buildResourceMap (workers : List (String × Option (List Binding))) :
    mapTypesOK (buildResourceMap workers) :=
  mapTypesOK_foldl_workers workers [] (fun p hp => absurd hp (List.not_mem_nil p))

/-- Every entry of the target pass output has a keyed kind. -/
theorem analyzeGo_types (enr : Binding → String → String) (target : String) :
    ∀ (bs : List Binding) (m : ResMap),
      mapTypesOK m → ∀ u ∈ (analyzeGo enr target bs m).1, keyedType u.resourceType
  | [], m => by
      intro hm u hu
      simp [analyzeGo] at hu
  | b :: bs, m => by
      intro hm u hu
      by_cases hk : getResourceKey b = ""
      · simp only [analyzeGo, if_pos hk] at hu
        exact analyzeGo_types enr target bs m hm u hu
      · cases hfind : mapFind m (getResourceKey b) with
        | some v =>
            have hv : keyedType v.resourceType :=
              hm (getResourceKey b, v) (mapFind_mem m _ v hfind)
            simp only [analyzeGo, if_neg hk, hfind] at hu
            rcases List.mem_cons.mp hu with h | h
            · subst h; exact hv
            · exact analyzeGo_types enr target bs _
                (mapTypesOK_mapSet m _
                  ⟨v.resourceID, v.resourceType, enr b v.resourceName,
                   v.usedBy, calculateRiskLevel v.usedBy target⟩ hm hv) u h
        | none =>
            simp only [analyzeGo, if_neg hk, hfind] at hu
            rcases List.mem_cons.mp hu with h | h
            · subst h; exact getResourceKey_keyedType b hk
            · exact analyzeGo_types enr target bs m hm u h

/-- Plan entries come from the input resource list. -/
theorem mem_of_mem_plan (w : WorkerInfo) (rs : List ResourceUsage) (eo : Bool)
    (u : ResourceUsage) (h : u ∈ (CreateDeletionPlan w rs eo).resourcesToDelete) :
    u ∈ rs := by
  simp only [CreateDeletionPlan, planStep_foldl, List.nil_append] at h
  cases eo with
  | false => simpa using h
  | true =>
      simp only [if_pos rfl] at h
      exact List.mem_of_mem_filter h

/-- A durable-object binding, a plain-text binding, and the entry the
analyzer derives from the durable-object binding. -/
def doBinding : Binding := ⟨.durableObject, "DO_BIND", "", "", "", "", "Cls", "scr", ""⟩

def envBinding : Binding := ⟨.envVar, "ENV", "", "", "", "", "", "", ""⟩

def doUsage : ResourceUsage := ⟨"Cls", .durableObject, "Cls", ["t"], RiskLevelSafe⟩

/-- Claim C3 (counterexample): a durable-object binding DOES produce a
ResourceKey, and a plan built from the analysis of a worker with that
single binding includes it in `resourcesToDelete` — contradicting the
claim that stateful-object classes and service links never produce a key
and never appear in a plan. -/
theorem c3_counterexample :
    getResourceKey doBinding ≠ "" ∧
    (CreateDeletionPlan ⟨"t", [doBinding]⟩
        (AnalyzeDependencies (fun _ => none) (fun _ => none) [] "t" [doBinding])
        false).resourcesToDelete ≠ [] := by
  decide

/-- Claim C3 (amended): plain-text, secret and the other non-keyed kinds
(hyperdrive, vectorize, mTLS) never produce a ResourceKey; durable-object
and service bindings DO produce (nonempty) keys; the executor performs no
remote delete call for durable-object/service/queue entries (no-op
success); and every entry of a plan built from an analysis result has one
of the six keyed kinds — so plain-text/secret bindings never appear. -/
theorem c3_amended_keyless_kinds :
    (∀ b : Binding,
      b.type = .envVar ∨ b.type = .secretText ∨ b.type = .hyperdrive ∨
        b.type = .vectorize ∨ b.type = .mtls →
      getResourceKey b = "") ∧
    (∀ b : Binding, b.type = .durableObject ∨ b.type = .service →
      getResourceKey b ≠ "") ∧
    (∀ (api : RemoteApi) (r : ResourceUsage),
      r.resourceType = .durableObject ∨ r.resourceType = .service ∨
        r.resourceType = .queue →
      deleteResource api r = none ∧ deleteResourceCall r = []) ∧
    (∀ (kvT d1N : String → Option String)
        (workers : List (String × Option (List Binding)))
        (target : String) (bs : List Binding) (w : WorkerInfo) (eo : Bool)
        (u : ResourceUsage),
      u ∈ (CreateDeletionPlan w
            (AnalyzeDependencies kvT d1N workers target bs) eo).resourcesToDelete →
      keyedType u.resourceType) := by
  refine ⟨?_, ?_, ?_, ?_⟩
  · intro b h
    rcases h with h | h | h | h | h <;> simp [getResourceKey, h]
  · intro b h
    rcases h with h | h <;> simp only [getResourceKey, h] <;> intro hc
    · have hlen := congrArg String.length hc
      simp [String.length_append] at hlen
      exact absurd hlen.1.1.1 (by decide)
    · have hlen := congrArg String.length hc
      simp [String.length_append] at hlen
      exact absurd hlen.1 (by decide)
  · intro api r h
    rcases h with h | h | h <;> simp [deleteResource, deleteResourceCall, h]
  · intro kvT d1N workers target bs w eo u hu
    exact analyzeGo_types _ target bs _ (mapTypesOK_buildResourceMap workers) u
      (mem_of_mem_plan w _ eo u hu)

/-- Claim C3 (witness): the amended statement at concrete bindings. -/
theorem c3_amended_witness :
    getResourceKey envBinding = "" ∧
    getResourceKey doBinding ≠ "" ∧
    deleteResource apiAllOk doUsage = none ∧
    deleteResourceCall doUsage = [] ∧
    keyedType doUsage.resourceType :=
  ⟨c3_amended_keyless_kinds.1 envBinding (Or.inl rfl),
   c3_amended_keyless_kinds.2.1 doBinding (Or.inl rfl),
   (c3_amended_keyless_kinds.2.2.1 apiAllOk doUsage (Or.inl rfl)).1,
   (c3_amended_keyless_kinds.2.2.1 apiAllOk doUsage (Or.inl rfl)).2,
   c3_amended_keyless_kinds.2.2.2 (fun _ => none) (fun _ => none) [] "t"
     [doBinding] ⟨"t", [doBinding]⟩ false doUsage (by decide)⟩

end CfPurge
